import Mathlib

/-!
# Verification of the optimization-news-collector pipeline

A shallow embedding of `optimization_collector.py` (class
`OptimizationNewsCollector`).  Python strings are modelled as `List Char`,
Python's ASCII-relevant `str.lower` as `Char.toLower` mapped over the list,
substring membership (`kw in text`) as `containsSub`, and dates as integer
day numbers (the pytz timezone conversion is not modelled; only the date
comparisons matter to the pipeline).  Network calls are modelled by oracles:
a function from attempt number to the outcome the call would produce.
Report rendering, e-mail/Discord delivery and file persistence are outside
the collection-and-relevance core and are not modelled.
-/

/-- Python string, as a list of characters. -/
abbrev Str := List Char

/-- Python `str.lower()` restricted to ASCII letters (the only characters
occurring in the configured keyword lists). -/
def lowerStr (s : Str) : Str := s.map Char.toLower

/-- Python's substring test `pat in text`. -/
def containsSub (pat : Str) : Str → Bool
  | [] => pat.isPrefixOf []
  | c :: rest => pat.isPrefixOf (c :: rest) || containsSub pat rest

/-- Python `str.strip()`: drop leading and trailing whitespace. -/
def stripStr (s : Str) : Str :=
  ((s.dropWhile Char.isWhitespace).reverse.dropWhile Char.isWhitespace).reverse

/-- Python `str.replace('\n', ' ')`. -/
def replaceNl (s : Str) : Str := s.map (fun c => if c = '\n' then ' ' else c)

/-! ## News collection: `collect_news_from_rss_improved`

Keyword tables are transcribed from lines 384-407 of the source. -/

/-- Tier 1 keyword list (`high_priority_keywords`), weight 2 per match. -/
def high_priority_keywords : List Str :=
  ["optimization", "optimisation", "algorithm", "programming",
   "machine learning", "AI", "artificial intelligence",
   "data science", "operations research", "solver"].map String.data

/-- Tier 2 keyword list (`medium_priority_keywords`), weight 1 per match. -/
def medium_priority_keywords : List Str :=
  ["analytics", "efficiency", "performance", "automation",
   "neural network", "deep learning", "model", "prediction",
   "computational", "mathematical", "statistical"].map String.data

/-- Tier 3 keyword list (`low_priority_keywords`), weight 0.5 per match. -/
def low_priority_keywords : List Str :=
  ["software", "technology", "tech", "innovation",
   "research", "development", "computing", "digital"].map String.data

/-- Exclusion keyword list (`exclude_keywords`). -/
def exclude_keywords : List Str :=
  ["celebrity", "entertainment", "sports", "weather",
   "crime", "accident", "war", "fashion", "food", "travel"].map String.data

/-- One parsed RSS feed entry, as consumed by the scoring loop.  The raw
`published` text only feeds the pretty-printed date of the stored record,
which is presentation only and not modelled. -/
structure FeedEntry where
  title : Str
  summary : Str
  link : Str
deriving DecidableEq

/-- Source: `combined_text = title.lower() + ' ' + summary.lower()` (lines 442-444). -/
def combined_text (e : FeedEntry) : Str :=
  lowerStr e.title ++ ' ' :: lowerStr e.summary

/-- Source: `exclude_count = sum(1 for exclude in exclude_keywords if exclude in
combined_text)` (lines 447-448): the number of exclusion keywords that occur
in the combined text. -/
def exclude_count (e : FeedEntry) : Nat :=
  (exclude_keywords.filter (fun k => containsSub k (combined_text e))).length

/-- Shape `sum(w for keyword in kws if keyword in combined_text)`: the generic
tier-score shape used by lines 453-458. -/
def tier_score (kws : List Str) (w : ℚ) (e : FeedEntry) : ℚ :=
  ((kws.filter (fun k => containsSub k (combined_text e))).map (fun _ => w)).sum

/-- Source `high_score` (lines 453-454). -/
def high_score (e : FeedEntry) : ℚ := tier_score high_priority_keywords 2 e

/-- Source `medium_score` (lines 455-456). -/
def medium_score (e : FeedEntry) : ℚ := tier_score medium_priority_keywords 1 e

/-- Source `low_score` (lines 457-458). -/
def low_score (e : FeedEntry) : ℚ := tier_score low_priority_keywords (1/2) e

/-- Source: `total_relevance_score = high_score + medium_score + low_score`
(line 460). -/
def total_relevance_score (e : FeedEntry) : ℚ :=
  high_score e + medium_score e + low_score e

/-- Number of keywords of a tier that match the combined text; used to state
the "weight times number of matches" claims. -/
def tierMatchCount (kws : List Str) (e : FeedEntry) : Nat :=
  (kws.filter (fun k => containsSub k (combined_text e))).length

/-- A stored news record (lines 481-488).  `relevance_score` stores
`round(total_relevance_score, 1)`; every score is an exact multiple of 0.5,
on which rounding to one decimal is the identity, so the rounding is elided.
The pretty-printed `published` string is presentation only and omitted. -/
structure NewsItem where
  title : Str
  link : Str
  summary : Str
  relevance_score : ℚ
  source_url : Str
deriving DecidableEq

/-- Building the stored record from an accepted entry (lines 481-488). -/
def mkNewsItem (rssUrl : Str) (e : FeedEntry) : NewsItem where
  title := stripStr e.title
  link := e.link
  summary := e.summary.take 300 ++ "...".data
  relevance_score := total_relevance_score e
  source_url := rssUrl

/-- The body of the per-entry loop (lines 440-490): skip when two or more
exclusion keywords match; otherwise score; accept when the score reaches 1.0
and no already-collected item has the same link. -/
def processEntry (rssUrl : Str) (acc : List NewsItem) (e : FeedEntry) : List NewsItem :=
  if 2 ≤ exclude_count e then acc
  else if 1 ≤ total_relevance_score e then
    if acc.any (fun item => item.link == e.link) then acc
    else acc ++ [mkNewsItem rssUrl e]
  else acc

/-- One RSS source: `reachable` is false when the HTTP probe fails, the
status is not 200, or the parsed feed has no entries (lines 420-435, any of
which makes the loop `continue`). -/
structure Feed where
  url : Str
  reachable : Bool
  entries : List FeedEntry

/-- The per-feed step (lines 411-501): an unreachable feed contributes
nothing; otherwise the first 20 entries are processed in order. -/
def processFeed (acc : List NewsItem) (f : Feed) : List NewsItem :=
  if f.reachable then (f.entries.take 20).foldl (processEntry f.url) acc else acc

/-- Descending comparison on stored scores, as used by
`news_items.sort(key=..., reverse=True)`; Python's sort is stable, which
`List.mergeSort` models exactly. -/
def scoreDescLe (a b : NewsItem) : Bool := decide (b.relevance_score ≤ a.relevance_score)

/-- Final ranking step (lines 503-507): stable sort by score descending,
then keep the top 10. -/
def rankNews (items : List NewsItem) : List NewsItem :=
  (items.mergeSort scoreDescLe).take 10

/-- Function `collect_news_from_rss_improved` (lines 365-522) over a list of feed
outcomes. -/
def collect_news_from_rss_improved (feeds : List Feed) : List NewsItem :=
  rankNews (feeds.foldl processFeed [])

/-! ## Academic collection: `collect_arxiv_papers_fixed` and
`collect_arxiv_papers_direct_api`

Dates are JST day numbers (`Int`); `cutoff_date = today - days_back`
(lines 127, 194).  The network is an oracle: for the arxiv-library path a
function from attempt index to that attempt's outcome, for the direct-API
path a list of per-query outcomes. -/

/-- An exception raised by the arxiv-library call.  The `transient` flag
records whether the error is a network/timeout/rate-limit style failure;
the source's `except Exception` handler (line 155) never inspects it. -/
structure FetchError where
  transient : Bool
deriving DecidableEq

/-- One result object of the arxiv library (fields used by lines 165-178). -/
structure ArxivResult where
  title : Str
  authors : List Str
  summary : Str
  entry_id : Str
  published : Int
  updated : Option Int
  categories : List Str
deriving DecidableEq

/-- A stored paper record (lines 170-178 / 252-260).  `published` and
`updated` keep the day number; `strftime` formatting is presentation only. -/
structure Paper where
  title : Str
  authors : List Str
  abstract : Str
  url : Str
  published : Int
  updated : Option Int
  categories : List Str
deriving DecidableEq

/-- The date-window test of lines 169 and 237:
`published_jst >= cutoff_date or (updated_jst and updated_jst >= cutoff_date)`. -/
def dateOk (cutoff pub : Int) (upd : Option Int) : Bool :=
  decide (cutoff ≤ pub) || upd.any (fun u => decide (cutoff ≤ u))

/-- Record built from an arxiv-library result (lines 170-178). -/
def mkPaperFromResult (r : ArxivResult) : Paper where
  title := stripStr (replaceNl r.title)
  authors := r.authors.take 3
  abstract := (stripStr (replaceNl r.summary)).take 500 ++ "...".data
  url := r.entry_id
  published := r.published
  updated := r.updated
  categories := r.categories

/-- Body of the result loop of lines 165-178: append the record when either
date is inside the window. -/
def primaryStep (cutoff : Int) (papers : List Paper) (r : ArxivResult) : List Paper :=
  if dateOk cutoff r.published r.updated then papers ++ [mkPaperFromResult r]
  else papers

/-- The retry loop of lines 146-162.  `rc` is `retry_count`, `fuel` is
`max_retries - retry_count`.  Returns the list of back-off sleeps performed
(`time.sleep(2 ** retry_count)` after each failure that leaves retries) and
the successful result, if any. -/
def retryAux (attempts : Nat → Except FetchError (List ArxivResult)) :
    Nat → Nat → List Nat × Option (List ArxivResult)
  | _, 0 => ([], none)
  | rc, fuel + 1 =>
    match attempts rc with
    | .ok results => ([], some results)
    | .error _ =>
      if fuel = 0 then ([], none)
      else
        let rest := retryAux attempts (rc + 1) fuel
        (2 ^ (rc + 1) :: rest.1, rest.2)

/-- The retry loop started at `retry_count = 0` with `max_retries` fuel. -/
def retryRun (attempts : Nat → Except FetchError (List ArxivResult))
    (maxRetries : Nat) : List Nat × Option (List ArxivResult) :=
  retryAux attempts 0 maxRetries

/-- One feedparser entry of the direct-API response (lines 220-260).
`published = none` models a `published` string `strptime` cannot parse, in
which case the entry-level handler skips the entry; an unparseable
`updated` is already `none` by lines 227-234. -/
structure ApiEntry where
  title : Str
  authors : List Str
  summary : Str
  id : Str
  published : Option Int
  updated : Option Int
  categories : List Str
deriving DecidableEq

/-- Record built from a direct-API entry (lines 252-260). -/
def mkPaperFromApiEntry (e : ApiEntry) (pub : Int) : Paper where
  title := stripStr (replaceNl e.title)
  authors := e.authors.take 3
  abstract := (stripStr (replaceNl e.summary)).take 500 ++ "...".data
  url := e.id
  published := pub
  updated := e.updated
  categories := e.categories

/-- Body of the per-entry loop of lines 220-260: skip unparseable entries,
filter by the date window, and append only when no collected paper already
has this entry's URL (line 239). -/
def processApiEntry (cutoff : Int) (papers : List Paper) (e : ApiEntry) : List Paper :=
  match e.published with
  | none => papers
  | some pub =>
    if dateOk cutoff pub e.updated then
      if papers.any (fun p => p.url == e.id) then papers
      else papers ++ [mkPaperFromApiEntry e pub]
    else papers

/-- Per-query step of lines 204-268: a failed query is caught and skipped;
a successful one feeds its entries through `processApiEntry`. -/
def processQuery (cutoff : Int) (papers : List Paper) :
    Option (List ApiEntry) → List Paper
  | none => papers
  | some entries => entries.foldl (processApiEntry cutoff) papers

/-- Function `collect_arxiv_papers_direct_api` (lines 189-278) over the outcomes of
its three sub-queries.  The outer catch-all that returns `[]` (line 278)
corresponds to every query failing. -/
def collect_arxiv_papers_direct_api (queryOutcomes : List (Option (List ApiEntry)))
    (today days_back : Int) : List Paper :=
  queryOutcomes.foldl (processQuery (today - days_back)) []

/-- Function `collect_arxiv_papers_fixed` (lines 122-186): run the arxiv-library call
under the 3-attempt retry loop; on success filter the results by the date
window; on exhaustion (or any other exception) fall back to the direct-API
collector. -/
def collect_arxiv_papers_fixed (attempts : Nat → Except FetchError (List ArxivResult))
    (queryOutcomes : List (Option (List ApiEntry))) (today days_back : Int) : List Paper :=
  match (retryRun attempts 3).2 with
  | some results => results.foldl (primaryStep (today - days_back)) []
  | none => collect_arxiv_papers_direct_api queryOutcomes today days_back

/-- The collected lists produced by one `run_daily_collection` run
(lines 983-1025); report generation and delivery consume them and are not
modelled. -/
structure CollectionResult where
  papers : List Paper
  news : List NewsItem
deriving DecidableEq

/-- Function `run_daily_collection` (lines 983-1025): papers via
`collect_arxiv_papers_fixed(days_back=2)`, news via
`collect_news_from_rss_improved`, collected independently. -/
def run_daily_collection (attempts : Nat → Except FetchError (List ArxivResult))
    (queryOutcomes : List (Option (List ApiEntry))) (feeds : List Feed)
    (today : Int) : CollectionResult where
  papers := collect_arxiv_papers_fixed attempts queryOutcomes today 2
  news := collect_news_from_rss_improved feeds

/-! ## Deduplication

Both collectors deduplicate at insertion time: a record is appended only if
no already-collected record carries the same identity key (line 239 for
paper URLs, line 480 for news links).  `insertIfNew` is that insertion step;
`dedupeBy` is the equivalent one-pass first-seen-wins deduplication of the
whole candidate stream. -/

/-- Append `x` unless an earlier element shares its key. -/
def insertIfNew {α : Type} (key : α → Str) (acc : List α) (x : α) : List α :=
  if acc.any (fun a => key a == key x) then acc else acc ++ [x]

/-- First-seen-wins deduplication, carrying the set of keys already seen. -/
def dedupeAux {α : Type} (key : α → Str) (seen : List Str) : List α → List α
  | [] => []
  | x :: xs =>
    if seen.any (· == key x) then dedupeAux key seen xs
    else x :: dedupeAux key (key x :: seen) xs

/-- Deduplication of a record stream by identity key, keeping the first
occurrence of each key. -/
def dedupeBy {α : Type} (key : α → Str) (xs : List α) : List α :=
  dedupeAux key [] xs

/-- The acceptance test of lines 447-463: fewer than two exclusion keywords
and a relevance score of at least 1.0. -/
def acceptEntry (e : FeedEntry) : Bool :=
  !decide (2 ≤ exclude_count e) && decide (1 ≤ total_relevance_score e)

/-- The records a single feed contributes to the candidate stream, in scan
order, before deduplication against earlier feeds. -/
def feedCandidates (f : Feed) : List NewsItem :=
  if f.reachable then ((f.entries.take 20).filter acceptEntry).map (mkNewsItem f.url)
  else []

/-- The full news candidate stream of a run, in scan order. -/
def allCandidates (feeds : List Feed) : List NewsItem :=
  (feeds.map feedCandidates).flatten

/-- The paper a direct-API entry would contribute, ignoring deduplication:
`none` when the entry is unparseable or outside the date window. -/
def apiPaper? (cutoff : Int) (e : ApiEntry) : Option Paper :=
  match e.published with
  | none => none
  | some pub => if dateOk cutoff pub e.updated then some (mkPaperFromApiEntry e pub) else none

/-- The full paper candidate stream of a direct-API run, in scan order. -/
def apiAllCandidates (cutoff : Int) (queryOutcomes : List (Option (List ApiEntry))) :
    List Paper :=
  (queryOutcomes.map (fun q =>
    match q with
    | none => []
    | some entries => entries.filterMap (apiPaper? cutoff))).flatten

/-- Modelled from the spec: the spec claims that `title` and `summary_text`
are "trimmed/truncated to a bounded length (implementation-defined cap,
e.g. 500-1000 characters) before scoring".  This definition applies that
truncation, for comparison against the code's scorer, which the source
applies to untruncated text. -/
def specTruncatedEntry (cap : Nat) (e : FeedEntry) : FeedEntry where
  title := e.title.take cap
  summary := e.summary.take cap
  link := e.link

/-! ## Concrete scenario data used by witnesses and counterexamples -/

/-- An entry whose text matches one high-tier and one medium-tier keyword. -/
def entScenario : FeedEntry := ⟨"Optimization model for scheduling".data, [], []⟩

/-- An entry matching two exclusion keywords and a high-tier keyword three
times over. -/
def entExcluded : FeedEntry :=
  ⟨"sports and weather algorithm algorithm algorithm".data, [], []⟩

/-- An entry matching exactly one high-tier keyword. -/
def entGood : FeedEntry := ⟨"optimization".data, [], "l".data⟩

/-- A reachable feed carrying `entGood`. -/
def feedW : Feed := ⟨"u".data, true, [entGood]⟩

/-- An entry whose only keyword occurrence starts after position 1050 of the
summary, beyond every truncation cap the spec allows. -/
def entLong : FeedEntry :=
  ⟨"x".data, List.replicate 1050 ' ' ++ "optimization".data, "l".data⟩

/-- A direct-API entry inside the date window for `today = 0, days_back = 2`. -/
def apiEntryW : ApiEntry := ⟨"t".data, [], "s".data, "id1".data, some 0, none, []⟩

/-- An arxiv-library result (contents irrelevant to the retry claims). -/
def arxivResW : ArxivResult := ⟨"t".data, [], "s".data, "id2".data, 0, none, []⟩

/-- Attempt oracle: a non-transient error on the first attempt, success on
the second. -/
def attemptsCX : Nat → Except FetchError (List ArxivResult) :=
  fun n => if n = 0 then .error ⟨false⟩ else .ok [arxivResW]

/-- Spec scenario, for cutoff day 8 (now = day 10, window 2 days): a result
published on the boundary day 8 (kept). -/
def resKept : ArxivResult := ⟨"t".data, [], "s".data, "k".data, 8, none, []⟩

/-- Spec scenario: a result published on day 7, before the cutoff (dropped). -/
def resDropped : ArxivResult := ⟨"t".data, [], "s".data, "d".data, 7, none, []⟩

/-- Two stored news items with distinct scores, already in descending order. -/
def itemHi : NewsItem := ⟨"a".data, "la".data, [], 3, []⟩

/-- See `itemHi`. -/
def itemLo : NewsItem := ⟨"b".data, "lb".data, [], 2, []⟩

/-! ## Evaluation helpers for the scorer -/

theorem sum_map_const {α : Type} (w : ℚ) (l : List α) :
    (l.map fun _ => w).sum = l.length * w := by
  induction l with
  | nil => simp
  | cons a l ih => simp [ih, add_mul, add_comm]

theorem tier_score_eq (kws : List Str) (w : ℚ) (e : FeedEntry) :
    tier_score kws w e = w * tierMatchCount kws e := by
  rw [tier_score, tierMatchCount, sum_map_const, mul_comm]

theorem total_relevance_score_eq (e : FeedEntry) :
    total_relevance_score e =
      2 * tierMatchCount high_priority_keywords e
        + 1 * tierMatchCount medium_priority_keywords e
        + (1/2) * tierMatchCount low_priority_keywords e := by
  rw [total_relevance_score, high_score, medium_score, low_score,
    tier_score_eq, tier_score_eq, tier_score_eq]

/-! ## Deduplication lemmas -/

theorem dedupeAux_congr {α : Type} (key : α → Str) {s t : List Str}
    (h : ∀ k, s.any (· == k) = t.any (· == k)) :
    ∀ xs : List α, dedupeAux key s xs = dedupeAux key t xs := by
  intro xs
  induction xs generalizing s t with
  | nil => rfl
  | cons x xs ih =>
    simp only [dedupeAux, h (key x)]
    by_cases hx : t.any (· == key x) = true
    · simp [hx, ih h]
    · have h' : ∀ k, (key x :: s).any (· == k) = (key x :: t).any (· == k) := by
        intro k; simp [List.any_cons, h k]
      simp [hx, ih h']

theorem foldl_insertIfNew {α : Type} (key : α → Str) :
    ∀ (xs : List α) (acc : List α),
      xs.foldl (insertIfNew key) acc = acc ++ dedupeAux key (acc.map key) xs := by
  intro xs
  induction xs with
  | nil => intro acc; simp [dedupeAux]
  | cons x xs ih =>
    intro acc
    rw [List.foldl_cons, insertIfNew]
    by_cases hx : acc.any (fun a => key a == key x) = true
    · have hseen : (acc.map key).any (· == key x) = true := by
        simpa [List.any_map, Function.comp] using hx
      simp [hx, dedupeAux, hseen, ih]
    · have hseen : (acc.map key).any (· == key x) = false := by
        rw [Bool.eq_false_iff]
        intro hc
        exact hx (by simpa [List.any_map, Function.comp] using hc)
      rw [if_neg hx, ih, List.map_append, dedupeAux, hseen]
      have hcongr : dedupeAux key (acc.map key ++ [key x]) xs
          = dedupeAux key (key x :: acc.map key) xs :=
        dedupeAux_congr key (fun k => by simp [List.any_append, Bool.or_comm]) xs
      simp [hcongr]

theorem length_dedupeAux {α : Type} (key : α → Str) :
    ∀ (xs : List α) (seen : List Str), (dedupeAux key seen xs).length ≤ xs.length := by
  intro xs
  induction xs with
  | nil => intro seen; simp [dedupeAux]
  | cons x xs ih =>
    intro seen
    rw [dedupeAux]
    by_cases hx : seen.any (· == key x) = true
    · simp only [hx, if_true]
      exact Nat.le_succ_of_le (ih seen)
    · simp only [hx]
      simpa using Nat.succ_le_succ (ih (key x :: seen))

theorem dedupeAux_idem {α : Type} (key : α → Str) :
    ∀ (xs : List α) (seen : List Str),
      dedupeAux key seen (dedupeAux key seen xs) = dedupeAux key seen xs := by
  intro xs
  induction xs with
  | nil => intro seen; rfl
  | cons x xs ih =>
    intro seen
    by_cases hx : seen.any (· == key x) = true
    · rw [dedupeAux, if_pos hx]
      exact ih seen
    · rw [dedupeAux, if_neg hx, dedupeAux, if_neg hx, ih]

theorem mem_of_mem_dedupeAux {α : Type} (key : α → Str) {y : α} :
    ∀ {xs : List α} {seen : List Str}, y ∈ dedupeAux key seen xs → y ∈ xs := by
  intro xs
  induction xs with
  | nil => intro seen h; simp [dedupeAux] at h
  | cons x xs ih =>
    intro seen h
    rw [dedupeAux] at h
    by_cases hx : seen.any (· == key x) = true
    · rw [if_pos hx] at h
      exact List.mem_cons_of_mem x (ih h)
    · rw [if_neg hx] at h
      rcases List.mem_cons.mp h with h | h
      · exact h ▸ List.mem_cons_self x xs
      · exact List.mem_cons_of_mem x (ih h)

/-! ## Bridging the accumulation loops to `dedupeBy` -/

theorem processEntry_eq_insertIfNew (rssUrl : Str) (acc : List NewsItem) (e : FeedEntry) :
    processEntry rssUrl acc e =
      if acceptEntry e then insertIfNew NewsItem.link acc (mkNewsItem rssUrl e)
      else acc := by
  rw [processEntry, acceptEntry, insertIfNew]
  by_cases h1 : 2 ≤ exclude_count e
  · simp [h1]
  · by_cases h2 : 1 ≤ total_relevance_score e
    · simp [h1, h2, mkNewsItem]
    · simp [h1, h2]

theorem foldl_processEntry (rssUrl : Str) :
    ∀ (entries : List FeedEntry) (acc : List NewsItem),
      entries.foldl (processEntry rssUrl) acc =
        ((entries.filter acceptEntry).map (mkNewsItem rssUrl)).foldl
          (insertIfNew NewsItem.link) acc := by
  intro entries
  induction entries with
  | nil => intro acc; rfl
  | cons e entries ih =>
    intro acc
    rw [List.foldl_cons, processEntry_eq_insertIfNew]
    by_cases h : acceptEntry e = true
    · simp [h, List.filter_cons, ih]
    · simp only [h, if_false, Bool.false_eq_true]
      rw [List.filter_cons_of_neg (by simp [h]), ih]

theorem foldl_processFeed :
    ∀ (feeds : List Feed) (acc : List NewsItem),
      feeds.foldl processFeed acc =
        (allCandidates feeds).foldl (insertIfNew NewsItem.link) acc := by
  intro feeds
  induction feeds with
  | nil => intro acc; rfl
  | cons f feeds ih =>
    intro acc
    rw [List.foldl_cons, ih]
    have hstep : processFeed acc f = (feedCandidates f).foldl (insertIfNew NewsItem.link) acc := by
      rw [processFeed, feedCandidates]
      by_cases hr : f.reachable
      · simp only [hr, if_true]
        exact foldl_processEntry f.url (f.entries.take 20) acc
      · simp [hr]
    rw [hstep, ← List.foldl_append]
    have : allCandidates (f :: feeds) = feedCandidates f ++ allCandidates feeds := by
      simp [allCandidates]
    rw [this]

/-- The accumulated news list is exactly the deduplicated candidate stream:
deduplication happens during accumulation, before the ranking step. -/
theorem newsFold_eq_dedupe (feeds : List Feed) :
    feeds.foldl processFeed [] = dedupeBy NewsItem.link (allCandidates feeds) := by
  rw [foldl_processFeed, foldl_insertIfNew, dedupeBy]
  simp

theorem processApiEntry_eq_insertIfNew (cutoff : Int) (papers : List Paper) (e : ApiEntry) :
    processApiEntry cutoff papers e =
      match apiPaper? cutoff e with
      | none => papers
      | some p => insertIfNew Paper.url papers p := by
  rw [processApiEntry, apiPaper?]
  cases e.published with
  | none => rfl
  | some pub =>
    by_cases hd : dateOk cutoff pub e.updated = true
    · simp [hd, insertIfNew, mkPaperFromApiEntry]
    · simp [hd]

theorem foldl_processApiEntry (cutoff : Int) :
    ∀ (entries : List ApiEntry) (papers : List Paper),
      entries.foldl (processApiEntry cutoff) papers =
        (entries.filterMap (apiPaper? cutoff)).foldl (insertIfNew Paper.url) papers := by
  intro entries
  induction entries with
  | nil => intro papers; rfl
  | cons e entries ih =>
    intro papers
    rw [List.foldl_cons, processApiEntry_eq_insertIfNew, List.filterMap_cons]
    cases hp : apiPaper? cutoff e with
    | none => exact ih papers
    | some p => rw [List.foldl_cons]; exact ih _

theorem foldl_processQuery (cutoff : Int) :
    ∀ (qs : List (Option (List ApiEntry))) (papers : List Paper),
      qs.foldl (processQuery cutoff) papers =
        (apiAllCandidates cutoff qs).foldl (insertIfNew Paper.url) papers := by
  intro qs
  induction qs with
  | nil => intro papers; rfl
  | cons q qs ih =>
    intro papers
    rw [List.foldl_cons, ih]
    have hq : apiAllCandidates cutoff (q :: qs)
        = (match q with
           | none => []
           | some entries => entries.filterMap (apiPaper? cutoff))
          ++ apiAllCandidates cutoff qs := by
      simp [apiAllCandidates]
    rw [hq, List.foldl_append]
    cases q with
    | none => rfl
    | some entries =>
      rw [processQuery, foldl_processApiEntry]

/-- The direct-API collector is exactly: deduplicate (by paper URL) the
date-filtered candidate stream of its sub-queries, first occurrence kept. -/
theorem directApi_eq_dedupe (qs : List (Option (List ApiEntry))) (today days_back : Int) :
    collect_arxiv_papers_direct_api qs today days_back
      = dedupeBy Paper.url (apiAllCandidates (today - days_back) qs) := by
  rw [collect_arxiv_papers_direct_api, foldl_processQuery, foldl_insertIfNew, dedupeBy]
  simp

/-! ## Date-window and retry-loop lemmas -/

theorem dateOk_iff (cutoff pub : Int) (upd : Option Int) :
    dateOk cutoff pub upd = true ↔
      (cutoff ≤ pub ∨ ∃ u, upd = some u ∧ cutoff ≤ u) := by
  cases upd with
  | none => simp [dateOk]
  | some u => simp [dateOk, Option.any]

theorem retryAux_ok (attempts : Nat → Except FetchError (List ArxivResult))
    (rc : Nat) {results : List ArxivResult} (fuel : Nat)
    (h : attempts rc = .ok results) :
    retryAux attempts rc (fuel + 1) = ([], some results) := by
  rw [retryAux, h]

theorem retryAux_err (attempts : Nat → Except FetchError (List ArxivResult))
    (rc : Nat) {e : FetchError} (fuel : Nat) (hf : fuel ≠ 0)
    (h : attempts rc = .error e) :
    retryAux attempts rc (fuel + 1)
      = (2 ^ (rc + 1) :: (retryAux attempts (rc + 1) fuel).1,
         (retryAux attempts (rc + 1) fuel).2) := by
  rw [retryAux, h]
  simp [hf]

theorem retryAux_err_last {attempts : Nat → Except FetchError (List ArxivResult)}
    {rc : Nat} {e : FetchError} (h : attempts rc = .error e) :
    retryAux attempts rc 1 = ([], none) := by
  rw [retryAux, h]
  simp

/-- Three failing attempts: the loop sleeps 2 then 4 seconds and gives up. -/
theorem retryRun_all_err {attempts : Nat → Except FetchError (List ArxivResult)}
    (h : ∀ i, i < 3 → ∃ e, attempts i = .error e) :
    retryRun attempts 3 = ([2, 4], none) := by
  obtain ⟨e0, h0⟩ := h 0 (by norm_num)
  obtain ⟨e1, h1⟩ := h 1 (by norm_num)
  obtain ⟨e2, h2⟩ := h 2 (by norm_num)
  have s2 : retryAux attempts 2 1 = ([], none) := retryAux_err_last h2
  have s1 : retryAux attempts 1 2 = ([4], none) := by
    have hstep := retryAux_err attempts 1 1 (by norm_num) h1
    norm_num at hstep
    rw [s2] at hstep
    simpa using hstep
  have s0 : retryAux attempts 0 3 = ([2, 4], none) := by
    have hstep := retryAux_err attempts 0 2 (by norm_num) h0
    norm_num at hstep
    rw [s1] at hstep
    simpa using hstep
  exact s0

/-! ## Character-level lemmas: no lowercased text contains an upper-case A -/

theorem char_toNat_ofNat_valid {n : Nat} (h : n < 55296) :
    (Char.ofNat n).toNat = n := by
  rw [Char.ofNat, dif_pos (Or.inl h)]
  rfl

theorem toLower_ne_upperA (c : Char) : Char.toLower c ≠ 'A' := by
  rw [Char.toLower]
  split
  · rename_i h
    intro hEq
    have h65 : (Char.ofNat (c.toNat + 32)).toNat = 65 := by rw [hEq]; rfl
    have hid : (Char.ofNat (c.toNat + 32)).toNat = c.toNat + 32 :=
      char_toNat_ofNat_valid (by omega)
    omega
  · rename_i h
    intro hEq
    apply h
    rw [hEq]
    exact ⟨by decide, by decide⟩

theorem upperA_not_mem_combined (e : FeedEntry) : 'A' ∉ combined_text e := by
  intro h
  rcases List.mem_append.mp h with h | h
  · rcases List.mem_map.mp h with ⟨c, -, hc⟩
    exact toLower_ne_upperA c hc
  · rcases List.mem_cons.mp h with h | h
    · exact absurd h (by decide)
    · rcases List.mem_map.mp h with ⟨c, -, hc⟩
      exact toLower_ne_upperA c hc

theorem mem_of_containsSub_cons {p : Char} {ps l : Str}
    (h : containsSub (p :: ps) l = true) : p ∈ l := by
  induction l with
  | nil =>
    rw [containsSub] at h
    rw [List.isPrefixOf_iff_prefix] at h
    simp at h
  | cons c rest ih =>
    rw [containsSub, Bool.or_eq_true] at h
    rcases h with h | h
    · rw [List.isPrefixOf_iff_prefix] at h
      rcases List.cons_prefix_cons.mp h with ⟨rfl, -⟩
      exact List.mem_cons_self _ _
    · exact List.mem_cons_of_mem _ (ih h)

theorem filter_eq_filter_erase (p : Str → Bool) (a : Str) (hpa : p a = false) :
    ∀ l : List Str, l.filter p = (l.erase a).filter p := by
  intro l
  induction l with
  | nil => rfl
  | cons x l ih =>
    rw [List.erase_cons]
    by_cases hx : x = a
    · subst hx
      rw [List.filter_cons_of_neg (by simp [hpa]), if_pos (by simp)]
    · rw [if_neg (by simp [hx]), List.filter_cons, List.filter_cons, ih]

/-- All-`none` query outcomes leave the direct-API collector empty. -/
theorem directApi_all_none {qs : List (Option (List ApiEntry))}
    (h : ∀ o ∈ qs, o = none) (today days_back : Int) :
    collect_arxiv_papers_direct_api qs today days_back = [] := by
  rw [collect_arxiv_papers_direct_api]
  induction qs with
  | nil => rfl
  | cons q qs ih =>
    have hq : q = none := h q (List.mem_cons_self q qs)
    rw [List.foldl_cons, hq]
    exact ih (fun o ho => h o (List.mem_cons_of_mem q ho))

/-! ## Provenance of news output and scenario evaluations -/

theorem acceptEntry_iff (e : FeedEntry) :
    acceptEntry e = true ↔ (exclude_count e < 2 ∧ 1 ≤ total_relevance_score e) := by
  rw [acceptEntry]
  simp [Nat.not_le]

theorem newsItem_sound {feeds : List Feed} {item : NewsItem}
    (h : item ∈ collect_news_from_rss_improved feeds) :
    ∃ f ∈ feeds, f.reachable = true ∧ ∃ e ∈ f.entries.take 20,
      acceptEntry e = true ∧ item = mkNewsItem f.url e := by
  rw [collect_news_from_rss_improved, rankNews] at h
  have h1 : item ∈ (feeds.foldl processFeed []).mergeSort scoreDescLe :=
    List.mem_of_mem_take h
  rw [List.mem_mergeSort, newsFold_eq_dedupe] at h1
  have h2 : item ∈ allCandidates feeds := mem_of_mem_dedupeAux NewsItem.link h1
  rw [allCandidates, List.mem_flatten] at h2
  obtain ⟨l, hl, hitem⟩ := h2
  rw [List.mem_map] at hl
  obtain ⟨f, hf, rfl⟩ := hl
  rw [feedCandidates] at hitem
  by_cases hr : f.reachable
  · rw [if_pos hr] at hitem
    rw [List.mem_map] at hitem
    obtain ⟨e, he, rfl⟩ := hitem
    rw [List.mem_filter] at he
    exact ⟨f, hf, hr, e, he.1, he.2, rfl⟩
  · rw [if_neg hr] at hitem
    simp at hitem

theorem score_entGood : total_relevance_score entGood = 2 := by
  rw [total_relevance_score_eq]
  norm_num [show tierMatchCount high_priority_keywords entGood = 1 from by decide,
    show tierMatchCount medium_priority_keywords entGood = 0 from by decide,
    show tierMatchCount low_priority_keywords entGood = 0 from by decide]

theorem acceptEntry_entGood : acceptEntry entGood = true := by
  have h1 : decide (2 ≤ exclude_count entGood) = false := by decide
  have h2 : decide (1 ≤ total_relevance_score entGood) = true :=
    decide_eq_true (by rw [score_entGood]; norm_num)
  rw [acceptEntry, h1, h2]
  rfl

theorem collect_news_feedW :
    collect_news_from_rss_improved [feedW] = [mkNewsItem ("u".data) entGood] := by
  rw [collect_news_from_rss_improved, newsFold_eq_dedupe]
  have hcand : allCandidates [feedW] = [mkNewsItem ("u".data) entGood] := by
    simp [allCandidates, feedCandidates, feedW, List.filter_cons, acceptEntry_entGood]
  rw [hcand]
  simp [dedupeBy, dedupeAux, rankNews]

theorem scoreDescLe_trans (a b c : NewsItem) :
    scoreDescLe a b → scoreDescLe b c → scoreDescLe a c := by
  simp only [scoreDescLe, decide_eq_true_eq]
  exact fun hab hbc => le_trans hbc hab

theorem scoreDescLe_total (a b : NewsItem) : scoreDescLe a b || scoreDescLe b a := by
  simp only [scoreDescLe, Bool.or_eq_true, decide_eq_true_eq]
  exact le_total b.relevance_score a.relevance_score

/-! ## Claims -/

/-- C1: For every feed entry not vetoed by the exclusion check, the
relevance score is the sum over the three keyword tiers of the tier weight
times the number of that tier's keywords occurring as substrings of the
lowercased concatenation of title, a space, and summary: high-tier matches
contribute 2 each, medium-tier 1 each, low-tier 0.5 each. -/
theorem C1_score_is_weighted_tier_sum (e : FeedEntry) (h : exclude_count e < 2) :
    total_relevance_score e =
      2 * tierMatchCount high_priority_keywords e
        + 1 * tierMatchCount medium_priority_keywords e
        + (1/2) * tierMatchCount low_priority_keywords e :=
  total_relevance_score_eq e

/-- Witness for C1 on a concrete entry: one high-tier and one medium-tier
match give score 3. -/
theorem C1_witness :
    exclude_count entScenario < 2 ∧
    (total_relevance_score entScenario =
      2 * tierMatchCount high_priority_keywords entScenario
        + 1 * tierMatchCount medium_priority_keywords entScenario
        + (1/2) * tierMatchCount low_priority_keywords entScenario) ∧
    total_relevance_score entScenario = 3 := by
  refine ⟨by decide, C1_score_is_weighted_tier_sum entScenario (by decide), ?_⟩
  rw [C1_score_is_weighted_tier_sum entScenario (by decide)]
  norm_num [show tierMatchCount high_priority_keywords entScenario = 1 from by decide,
    show tierMatchCount medium_priority_keywords entScenario = 1 from by decide,
    show tierMatchCount low_priority_keywords entScenario = 0 from by decide]

/-- C2: An entry whose combined lowercased text contains at least two
(distinct) exclusion keywords is skipped by the per-entry loop regardless of
its tier matches, and consequently every record of the final output stems
from an entry with fewer than two exclusion hits (and score at least 1). -/
theorem C2_exclusion_veto :
    (∀ (rssUrl : Str) (acc : List NewsItem) (e : FeedEntry),
      2 ≤ exclude_count e → processEntry rssUrl acc e = acc) ∧
    (∀ (feeds : List Feed) (item : NewsItem),
      item ∈ collect_news_from_rss_improved feeds →
      ∃ f ∈ feeds, ∃ e ∈ f.entries.take 20,
        exclude_count e < 2 ∧ 1 ≤ total_relevance_score e ∧
          item = mkNewsItem f.url e) := by
  constructor
  · intro rssUrl acc e h
    rw [processEntry, if_pos h]
  · intro feeds item h
    obtain ⟨f, hf, hr, e, he, hacc, rfl⟩ := newsItem_sound h
    rcases (acceptEntry_iff e).mp hacc with ⟨h1, h2⟩
    exact ⟨f, hf, e, he, h1, h2, rfl⟩

/-- Witness for C2: the doubly-excluded entry (with three high-tier matches)
adds nothing, and a collected item is traced back to its accepted entry. -/
theorem C2_witness :
    processEntry ("u".data) [] entExcluded = [] ∧
    (∃ f ∈ [feedW], ∃ e ∈ f.entries.take 20,
      exclude_count e < 2 ∧ 1 ≤ total_relevance_score e ∧
        mkNewsItem ("u".data) entGood = mkNewsItem f.url e) := by
  constructor
  · exact C2_exclusion_veto.1 "u".data [] entExcluded (by decide)
  · exact C2_exclusion_veto.2 [feedW] (mkNewsItem ("u".data) entGood)
      (by rw [collect_news_feedW]; exact List.mem_singleton_self _)

/-- C3: When the retry loop around the arxiv-library call succeeds (with any
result, including the empty list), `collect_arxiv_papers_fixed` returns the
date-filtered primary results and never consults the direct-API fallback:
its output is independent of the fallback's query outcomes. -/
theorem C3_primary_success_short_circuits
    (attempts : Nat → Except FetchError (List ArxivResult))
    (results : List ArxivResult) (q1 q2 : List (Option (List ApiEntry)))
    (today days_back : Int) (h : (retryRun attempts 3).2 = some results) :
    collect_arxiv_papers_fixed attempts q1 today days_back
        = results.foldl (primaryStep (today - days_back)) [] ∧
    collect_arxiv_papers_fixed attempts q1 today days_back
        = collect_arxiv_papers_fixed attempts q2 today days_back := by
  rw [collect_arxiv_papers_fixed, collect_arxiv_papers_fixed, h]
  exact ⟨rfl, rfl⟩

/-- Witness for C3: a first-attempt success with zero records yields an
empty result and ignores the fallback oracle, even though the fallback would
have produced a record. -/
theorem C3_witness :
    (retryRun (fun _ => .ok []) 3).2 = some [] ∧
    collect_arxiv_papers_fixed (fun _ => .ok []) [some [apiEntryW]] 0 2 = [] ∧
    collect_arxiv_papers_fixed (fun _ => .ok []) [some [apiEntryW]] 0 2
      = collect_arxiv_papers_fixed (fun _ => .ok []) [] 0 2 ∧
    collect_arxiv_papers_direct_api [some [apiEntryW]] 0 2 ≠ [] := by
  refine ⟨rfl, ?_, ?_, ?_⟩
  · exact (C3_primary_success_short_circuits (fun _ => .ok []) []
      [some [apiEntryW]] [] 0 2 rfl).1
  · exact (C3_primary_success_short_circuits (fun _ => .ok []) []
      [some [apiEntryW]] [] 0 2 rfl).2
  · decide

/-- C4 counterexample: the retry loop at lines 151-162 catches every
exception, so a non-transient failure on attempt 1 is followed by a 2-second
back-off and a retry (which here succeeds) instead of propagating
immediately; and when all attempts fail, the terminal failure is not
surfaced: the direct-API fallback is invoked and its records returned. -/
theorem C4_counterexample :
    attemptsCX 0 = .error ⟨false⟩ ∧
    retryRun attemptsCX 3 = ([2], some [arxivResW]) ∧
    collect_arxiv_papers_fixed (fun _ => .error ⟨false⟩) [some [apiEntryW]] 0 2
      = [mkPaperFromApiEntry apiEntryW 0] := by
  refine ⟨rfl, by decide, by decide⟩

/-- C4 (amended): the retry loop retries any failed attempt regardless of
error kind, sleeping `2 ^ retry_count` seconds after each failure that
leaves retries (2 s, then 4 s), for at most 3 total attempts; on exhaustion
the failure is not surfaced to the caller — the direct-API fallback is
invoked and its result returned instead. -/
theorem C4_retry_any_error_then_fallback :
    (∀ (attempts : Nat → Except FetchError (List ArxivResult)) (e : FetchError)
      (results : List ArxivResult),
      attempts 0 = .error e → attempts 1 = .ok results →
      retryRun attempts 3 = ([2], some results)) ∧
    (∀ (attempts : Nat → Except FetchError (List ArxivResult))
      (q : List (Option (List ApiEntry))) (today days_back : Int),
      (∀ i, i < 3 → ∃ er, attempts i = .error er) →
      retryRun attempts 3 = ([2, 4], none) ∧
      collect_arxiv_papers_fixed attempts q today days_back
        = collect_arxiv_papers_direct_api q today days_back) := by
  constructor
  · intro attempts e results h0 h1
    have hok : retryAux attempts 1 2 = ([], some results) := by
      have hstep := retryAux_ok attempts 1 1 h1
      norm_num at hstep
      exact hstep
    have hstep := retryAux_err attempts 0 2 (by norm_num) h0
    norm_num at hstep
    rw [hok] at hstep
    simpa [retryRun] using hstep
  · intro attempts q today days_back h
    have hrun := retryRun_all_err h
    refine ⟨hrun, ?_⟩
    rw [collect_arxiv_papers_fixed, hrun]

/-- Witness for C4's amended statement at concrete oracles. -/
theorem C4_witness :
    retryRun attemptsCX 3 = ([2], some [arxivResW]) ∧
    retryRun (fun _ => .error ⟨false⟩) 3 = ([2, 4], none) ∧
    collect_arxiv_papers_fixed (fun _ => .error ⟨false⟩) [] 0 2
      = collect_arxiv_papers_direct_api [] 0 2 := by
  refine ⟨C4_retry_any_error_then_fallback.1 attemptsCX ⟨false⟩ [arxivResW] rfl rfl, ?_, ?_⟩
  · exact (C4_retry_any_error_then_fallback.2 (fun _ => .error ⟨false⟩) [] 0 2
      (fun i _ => ⟨⟨false⟩, rfl⟩)).1
  · exact (C4_retry_any_error_then_fallback.2 (fun _ => .error ⟨false⟩) [] 0 2
      (fun i _ => ⟨⟨false⟩, rfl⟩)).2

/-- C5: A fetched academic record is kept exactly when its published date,
or (when present) its updated date, is on or after the cutoff
`today - days_back` (boundary inclusive, union of the two timestamps), in
both the arxiv-library path and the direct-API path. -/
theorem C5_date_window_union :
    (∀ (cutoff : Int) (papers : List Paper) (r : ArxivResult),
      (cutoff ≤ r.published ∨ ∃ u, r.updated = some u ∧ cutoff ≤ u) →
      primaryStep cutoff papers r = papers ++ [mkPaperFromResult r]) ∧
    (∀ (cutoff : Int) (papers : List Paper) (r : ArxivResult),
      r.published < cutoff → (∀ u, r.updated = some u → u < cutoff) →
      primaryStep cutoff papers r = papers) ∧
    (∀ (cutoff : Int) (papers : List Paper) (e : ApiEntry) (pub : Int),
      e.published = some pub →
      (cutoff ≤ pub ∨ ∃ u, e.updated = some u ∧ cutoff ≤ u) →
      papers.any (fun p => p.url == e.id) = false →
      processApiEntry cutoff papers e = papers ++ [mkPaperFromApiEntry e pub]) ∧
    (∀ (cutoff : Int) (papers : List Paper) (e : ApiEntry) (pub : Int),
      e.published = some pub → pub < cutoff →
      (∀ u, e.updated = some u → u < cutoff) →
      processApiEntry cutoff papers e = papers) := by
  refine ⟨?_, ?_, ?_, ?_⟩
  · intro cutoff papers r h
    rw [primaryStep, if_pos ((dateOk_iff _ _ _).mpr h)]
  · intro cutoff papers r h1 h2
    rw [primaryStep, if_neg ?_]
    rw [dateOk_iff]
    rintro (hc | ⟨u, hu, hcu⟩)
    · omega
    · exact absurd hcu (not_le.mpr (h2 u hu))
  · intro cutoff papers e pub hp h hdup
    simp only [processApiEntry, hp]
    rw [if_pos ((dateOk_iff _ _ _).mpr h), if_neg (by rw [hdup]; simp)]
  · intro cutoff papers e pub hp h1 h2
    simp only [processApiEntry, hp]
    rw [if_neg ?_]
    rw [dateOk_iff]
    rintro (hc | ⟨u, hu, hcu⟩)
    · omega
    · exact absurd hcu (not_le.mpr (h2 u hu))

/-- Witness for C5 on the spec's scenario: cutoff 8 = 10 - 2; a record
published on day 8 is kept, one published on day 7 is dropped. -/
theorem C5_witness :
    primaryStep ((10 : Int) - 2) [] resKept = [mkPaperFromResult resKept] ∧
    primaryStep ((10 : Int) - 2) [] resDropped = [] := by
  constructor
  · exact C5_date_window_union.1 (10 - 2) [] resKept (Or.inl (by decide))
  · exact C5_date_window_union.2.1 (10 - 2) [] resDropped (by decide)
      (fun u hu => absurd hu (by simp [resDropped]))

/-- C6: Deduplication by identity key (news link, paper URL) keeps the first
occurrence of each key, is idempotent, never lengthens the stream, and in
both collectors runs on the accumulated candidate stream before the final
ranking / before the result is returned. -/
theorem C6_dedupe_first_seen :
    (∀ xs : List NewsItem,
      dedupeBy NewsItem.link (dedupeBy NewsItem.link xs) = dedupeBy NewsItem.link xs) ∧
    (∀ xs : List NewsItem, (dedupeBy NewsItem.link xs).length ≤ xs.length) ∧
    (∀ xs : List Paper,
      dedupeBy Paper.url (dedupeBy Paper.url xs) = dedupeBy Paper.url xs) ∧
    (∀ xs : List Paper, (dedupeBy Paper.url xs).length ≤ xs.length) ∧
    (∀ feeds : List Feed, collect_news_from_rss_improved feeds
        = rankNews (dedupeBy NewsItem.link (allCandidates feeds))) ∧
    (∀ (qs : List (Option (List ApiEntry))) (today days_back : Int),
      collect_arxiv_papers_direct_api qs today days_back
        = dedupeBy Paper.url (apiAllCandidates (today - days_back) qs)) :=
  ⟨fun xs => dedupeAux_idem _ xs [], fun xs => length_dedupeAux _ xs [],
    fun xs => dedupeAux_idem _ xs [], fun xs => length_dedupeAux _ xs [],
    fun feeds => by rw [collect_news_from_rss_improved, newsFold_eq_dedupe],
    fun qs today db => directApi_eq_dedupe qs today db⟩

/-- C7: The ranking step stably sorts by score descending and truncates to
the cap of 10: on an already-sorted list of length at most 10 it is the
identity; its output is sorted descending; and any originally-ordered
sublist of equal-or-descending scores (in particular, tied records in fetch
order) survives the sort in its original relative order. -/
theorem C7_ranking_stable_sorted_capped :
    (∀ xs : List NewsItem,
      xs.Pairwise (fun a b => b.relevance_score ≤ a.relevance_score) →
      xs.length ≤ 10 → rankNews xs = xs) ∧
    (∀ xs : List NewsItem,
      (rankNews xs).Pairwise (fun a b => b.relevance_score ≤ a.relevance_score)) ∧
    (∀ (xs c : List NewsItem),
      c.Pairwise (fun a b => b.relevance_score ≤ a.relevance_score) →
      c.Sublist xs → c.Sublist (xs.mergeSort scoreDescLe)) := by
  refine ⟨?_, ?_, ?_⟩
  · intro xs hs hl
    have hsorted : xs.Pairwise (fun a b => scoreDescLe a b = true) :=
      hs.imp fun h => decide_eq_true h
    rw [rankNews, @List.mergeSort_of_sorted NewsItem scoreDescLe xs hsorted,
      List.take_of_length_le hl]
  · intro xs
    have hp := @List.sorted_mergeSort NewsItem scoreDescLe
      scoreDescLe_trans scoreDescLe_total xs
    have hp' : (xs.mergeSort scoreDescLe).Pairwise
        (fun a b => b.relevance_score ≤ a.relevance_score) :=
      hp.imp fun h => by simpa [scoreDescLe] using h
    exact hp'.sublist (List.take_sublist 10 _)
  · intro xs c hc hsub
    exact List.sublist_mergeSort scoreDescLe_trans scoreDescLe_total
      (hc.imp fun h => decide_eq_true h) hsub

/-- Witness for C7: a two-element sorted list is returned unchanged, and a
sublist in order survives the sort. -/
theorem C7_witness :
    rankNews [itemHi, itemLo] = [itemHi, itemLo] ∧
    [itemLo].Sublist ([itemHi, itemLo].mergeSort scoreDescLe) := by
  have hp : [itemHi, itemLo].Pairwise
      (fun a b => b.relevance_score ≤ a.relevance_score) := by
    norm_num [itemHi, itemLo, List.pairwise_cons]
  constructor
  · exact C7_ranking_stable_sorted_capped.1 [itemHi, itemLo] hp (by norm_num)
  · exact C7_ranking_stable_sorted_capped.2.2 [itemHi, itemLo] [itemLo]
      (by simp) ((List.Sublist.refl [itemLo]).cons itemHi)

/-- C8: A full academic-category failure is not fatal: when every
arxiv-library attempt fails and every direct-API query fails, the run still
completes and returns an empty papers list, while the news list is exactly
what the news collector produces on its own. -/
theorem C8_category_failure_isolated
    (attempts : Nat → Except FetchError (List ArxivResult))
    (qs : List (Option (List ApiEntry))) (feeds : List Feed) (today : Int)
    (hA : ∀ i, i < 3 → ∃ er, attempts i = .error er)
    (hQ : ∀ o ∈ qs, o = none) :
    run_daily_collection attempts qs feeds today
      = ⟨[], collect_news_from_rss_improved feeds⟩ := by
  have hp : collect_arxiv_papers_fixed attempts qs today 2 = [] := by
    rw [collect_arxiv_papers_fixed, retryRun_all_err hA]
    exact directApi_all_none hQ today 2
  rw [run_daily_collection, hp]

/-- Witness for C8: both academic adapters fail, the news category succeeds;
the run returns empty papers and non-empty news. -/
theorem C8_witness :
    run_daily_collection (fun _ => .error ⟨true⟩) [none, none, none] [feedW] 0
      = ⟨[], collect_news_from_rss_improved [feedW]⟩ ∧
    collect_news_from_rss_improved [feedW] ≠ [] := by
  constructor
  · exact C8_category_failure_isolated (fun _ => .error ⟨true⟩) [none, none, none]
      [feedW] 0 (fun i _ => ⟨⟨true⟩, rfl⟩)
      (by intro o ho
          simp only [List.mem_cons, List.not_mem_nil, or_false] at ho
          rcases ho with rfl | rfl | rfl <;> rfl)
  · rw [collect_news_feedW]
    simp

/-- A match of a non-empty pattern cannot start inside a stretch of
characters that differ from the pattern's first character. -/
theorem containsSub_cons_append {p : Char} {ps : Str} :
    ∀ {pre : Str} (rest : Str), p ∉ pre →
      containsSub (p :: ps) (pre ++ rest) = containsSub (p :: ps) rest := by
  intro pre
  induction pre with
  | nil => intro rest _; rfl
  | cons c pre ih =>
    intro rest h
    have hpc : p ≠ c := fun he => h (he ▸ List.mem_cons_self c pre)
    rw [List.cons_append, containsSub]
    have hpref : (p :: ps).isPrefixOf (c :: (pre ++ rest)) = false := by
      rw [show ((p :: ps).isPrefixOf (c :: (pre ++ rest)))
            = ((p == c) && ps.isPrefixOf (pre ++ rest)) from rfl,
        beq_eq_false_iff_ne.mpr hpc, Bool.false_and]
    rw [hpref, Bool.false_or, ih rest (fun hm => h (List.mem_cons_of_mem c hm))]

theorem combined_entLong_eq :
    combined_text entLong
      = ('x' :: ' ' :: List.replicate 1050 ' ') ++ "optimization".data := by
  rw [combined_text]
  show lowerStr ("x".data) ++ ' '
      :: lowerStr (List.replicate 1050 ' ' ++ "optimization".data) = _
  rw [lowerStr, lowerStr, List.map_append, List.map_replicate,
    show Char.toLower ' ' = ' ' from rfl,
    show List.map Char.toLower ("x".data) = "x".data from by decide,
    show List.map Char.toLower ("optimization".data) = "optimization".data from by decide]
  simp only [List.singleton_append, List.cons_append, List.nil_append]

theorem combined_entTrunc_eq (cap : Nat) (h1 : 1 ≤ cap) (h2 : cap ≤ 1050) :
    combined_text (specTruncatedEntry cap entLong)
      = ('x' :: ' ' :: List.replicate cap ' ') ++ [] := by
  rw [combined_text, specTruncatedEntry]
  show lowerStr ("x".data.take cap) ++ ' '
      :: lowerStr ((List.replicate 1050 ' ' ++ "optimization".data).take cap) = _
  rw [List.take_append_of_le_length
      (show cap ≤ (List.replicate 1050 ' ').length from by
        rw [List.length_replicate]; exact h2),
    List.take_replicate,
    Nat.min_eq_left h2,
    List.take_of_length_le (show ("x".data).length ≤ cap by simpa using h1),
    lowerStr, lowerStr, List.map_replicate,
    show Char.toLower ' ' = ' ' from rfl,
    show List.map Char.toLower ("x".data) = "x".data from by decide]
  simp only [List.singleton_append, List.cons_append, List.nil_append, List.append_nil]

theorem head_not_mem_space_run {kw : Str} (cap : Nat)
    (h2 : kw.head? ≠ some 'x') (h3 : kw.head? ≠ some ' ') {p : Char} {ps : Str}
    (hk : kw = p :: ps) : p ∉ ('x' :: ' ' :: List.replicate cap ' ') := by
  subst hk
  intro hm
  rcases List.mem_cons.mp hm with rfl | hm
  · exact h2 rfl
  rcases List.mem_cons.mp hm with rfl | hm
  · exact h3 rfl
  · exact h3 (by rw [List.eq_of_mem_replicate hm]; rfl)

theorem containsSub_entLong {kw : Str} (h1 : kw ≠ [])
    (h2 : kw.head? ≠ some 'x') (h3 : kw.head? ≠ some ' ') :
    containsSub kw (combined_text entLong) = containsSub kw ("optimization".data) := by
  obtain ⟨p, ps, rfl⟩ : ∃ p ps, kw = p :: ps := by
    cases kw with
    | nil => exact absurd rfl h1
    | cons p ps => exact ⟨p, ps, rfl⟩
  rw [combined_entLong_eq,
    containsSub_cons_append _ (head_not_mem_space_run 1050 h2 h3 rfl)]

theorem containsSub_entTrunc (cap : Nat) (hc1 : 1 ≤ cap) (hc2 : cap ≤ 1050)
    {kw : Str} (h1 : kw ≠ []) (h2 : kw.head? ≠ some 'x') (h3 : kw.head? ≠ some ' ') :
    containsSub kw (combined_text (specTruncatedEntry cap entLong))
      = containsSub kw [] := by
  obtain ⟨p, ps, rfl⟩ : ∃ p ps, kw = p :: ps := by
    cases kw with
    | nil => exact absurd rfl h1
    | cons p ps => exact ⟨p, ps, rfl⟩
  rw [combined_entTrunc_eq cap hc1 hc2,
    containsSub_cons_append _ (head_not_mem_space_run cap h2 h3 rfl)]

theorem tierMatchCount_congr (kws : List Str) (e : FeedEntry) (g : Str → Bool)
    (h : ∀ kw ∈ kws, containsSub kw (combined_text e) = g kw) :
    tierMatchCount kws e = (kws.filter g).length := by
  rw [tierMatchCount, List.filter_congr h]

theorem exclude_count_eq_tierMatchCount (e : FeedEntry) :
    exclude_count e = tierMatchCount exclude_keywords e := rfl

theorem keyword_heads_ok :
    ∀ kw ∈ high_priority_keywords ++ medium_priority_keywords
        ++ low_priority_keywords ++ exclude_keywords,
      kw ≠ [] ∧ kw.head? ≠ some 'x' ∧ kw.head? ≠ some ' ' := by decide

theorem tierMatchCount_entLong (kws : List Str)
    (hmem : ∀ kw ∈ kws, kw ≠ [] ∧ kw.head? ≠ some 'x' ∧ kw.head? ≠ some ' ') :
    tierMatchCount kws entLong
      = (kws.filter (fun k => containsSub k ("optimization".data))).length :=
  tierMatchCount_congr kws entLong _ (fun kw hkw =>
    containsSub_entLong (hmem kw hkw).1 (hmem kw hkw).2.1 (hmem kw hkw).2.2)

theorem tierMatchCount_entTrunc (cap : Nat) (hc1 : 1 ≤ cap) (hc2 : cap ≤ 1050)
    (kws : List Str)
    (hmem : ∀ kw ∈ kws, kw ≠ [] ∧ kw.head? ≠ some 'x' ∧ kw.head? ≠ some ' ') :
    tierMatchCount kws (specTruncatedEntry cap entLong)
      = (kws.filter (fun k => containsSub k [])).length :=
  tierMatchCount_congr kws _ _ (fun kw hkw =>
    containsSub_entTrunc cap hc1 hc2 (hmem kw hkw).1 (hmem kw hkw).2.1 (hmem kw hkw).2.2)

theorem score_entLong : total_relevance_score entLong = 2 := by
  have hH := tierMatchCount_entLong high_priority_keywords
    (fun kw hkw => keyword_heads_ok kw (by simp [hkw]))
  have hM := tierMatchCount_entLong medium_priority_keywords
    (fun kw hkw => keyword_heads_ok kw (by simp [hkw]))
  have hL := tierMatchCount_entLong low_priority_keywords
    (fun kw hkw => keyword_heads_ok kw (by simp [hkw]))
  rw [total_relevance_score_eq, hH, hM, hL]
  norm_num [show (high_priority_keywords.filter
      (fun k => containsSub k ("optimization".data))).length = 1 from by decide,
    show (medium_priority_keywords.filter
      (fun k => containsSub k ("optimization".data))).length = 0 from by decide,
    show (low_priority_keywords.filter
      (fun k => containsSub k ("optimization".data))).length = 0 from by decide]

theorem score_entTrunc (cap : Nat) (hc1 : 1 ≤ cap) (hc2 : cap ≤ 1050) :
    total_relevance_score (specTruncatedEntry cap entLong) = 0 := by
  have hH := tierMatchCount_entTrunc cap hc1 hc2 high_priority_keywords
    (fun kw hkw => keyword_heads_ok kw (by simp [hkw]))
  have hM := tierMatchCount_entTrunc cap hc1 hc2 medium_priority_keywords
    (fun kw hkw => keyword_heads_ok kw (by simp [hkw]))
  have hL := tierMatchCount_entTrunc cap hc1 hc2 low_priority_keywords
    (fun kw hkw => keyword_heads_ok kw (by simp [hkw]))
  rw [total_relevance_score_eq, hH, hM, hL]
  norm_num [show (high_priority_keywords.filter
      (fun k => containsSub k [])).length = 0 from by decide,
    show (medium_priority_keywords.filter
      (fun k => containsSub k [])).length = 0 from by decide,
    show (low_priority_keywords.filter
      (fun k => containsSub k [])).length = 0 from by decide]

theorem exclude_count_entLong : exclude_count entLong = 0 := by
  rw [exclude_count_eq_tierMatchCount,
    tierMatchCount_entLong exclude_keywords
      (fun kw hkw => keyword_heads_ok kw (by simp [hkw]))]
  decide

/-- C9 counterexample: scoring in `collect_news_from_rss_improved` reads the
full untruncated text.  For an entry whose only keyword occurrence starts
after position 1050 of the summary, the code's score is 2 and the entry is
selected, while scoring text truncated at any cap in the spec's 500-1000
range (shown at both ends of the range) would give score 0. -/
theorem C9_counterexample :
    total_relevance_score entLong = 2 ∧
    total_relevance_score (specTruncatedEntry 1000 entLong) = 0 ∧
    total_relevance_score (specTruncatedEntry 500 entLong) = 0 ∧
    processEntry ("u".data) [] entLong = [mkNewsItem ("u".data) entLong] := by
  refine ⟨score_entLong, score_entTrunc 1000 (by norm_num) (by norm_num),
    score_entTrunc 500 (by norm_num) (by norm_num), ?_⟩
  rw [processEntry, if_neg (by rw [exclude_count_entLong]; norm_num),
    if_pos (by rw [score_entLong]; norm_num), if_neg (by simp)]
  simp

/-- C9 (amended): no truncation is applied before scoring; the relevance
score is computed from the full title and summary, and truncation (summary
to 300 characters plus an ellipsis) happens only when the record is stored
in the output. -/
theorem C9_truncation_only_at_storage (rssUrl : Str) (e : FeedEntry) :
    (mkNewsItem rssUrl e).summary = e.summary.take 300 ++ "...".data ∧
    (mkNewsItem rssUrl e).summary.length ≤ 303 ∧
    (mkNewsItem rssUrl e).relevance_score = total_relevance_score e := by
  refine ⟨rfl, ?_, rfl⟩
  simp only [mkNewsItem, List.length_append, List.length_cons, List.length_nil,
    List.length_take]
  omega

/-- C10: The high-tier keyword `"AI"` can never match: the scored text is
lowercased while the membership test is case-sensitive, so `"AI"` is never a
substring of the combined text, and the total score equals the score
computed with `"AI"` removed from the high-priority tier. -/
theorem C10_AI_keyword_never_matches (e : FeedEntry) :
    containsSub ("AI".data) (combined_text e) = false ∧
    high_score e = tier_score (high_priority_keywords.erase ("AI".data)) 2 e ∧
    total_relevance_score e
      = tier_score (high_priority_keywords.erase ("AI".data)) 2 e
        + medium_score e + low_score e := by
  have hAI : containsSub ("AI".data) (combined_text e) = false := by
    rw [Bool.eq_false_iff]
    intro hc
    exact upperA_not_mem_combined e (mem_of_containsSub_cons hc)
  have herase : high_score e = tier_score (high_priority_keywords.erase ("AI".data)) 2 e := by
    rw [high_score, tier_score, tier_score,
      filter_eq_filter_erase (fun k => containsSub k (combined_text e)) ("AI".data) hAI
        high_priority_keywords]
  exact ⟨hAI, herase, by rw [total_relevance_score, herase]⟩
